import Mathlib

/-!
Shallow embedding of the gen-v video generation and assembly pipeline.

Sources embedded here:
* `src/backend/gen_v/video/generation.py` — `send_request_to_google_api`,
  `fetch_operation`, `image_to_video`, `generate_video_for_item`,
  `generate_videos_concurrently`.
* `src/backend/gen_v/video/editing.py` — `trim_clips`,
  `set_target_resolution`, `get_opposite_side`.
* `src/backend/components/video_editing.py` — `calculate_audio_duration`.
* `src/backend/gen_v/utils/image.py` — `hex_to_rgb`.

Python floats are modelled by `ℚ`, machine ints by `ℕ`/`ℤ`, raised
exceptions by `Except PyError`, and the network/disk environment of a
function by an explicit oracle argument.
-/

deriving instance DecidableEq for Except

namespace GenV

/-- Python exception classes reachable in the embedded code. -/
inductive PyError where
  | valueError
  | zeroDivisionError
  | fileNotFoundError
  | httpError (status : ℕ)
deriving DecidableEq, Repr

/-! ## Operation poller — `generation.py` lines 141-170 (`fetch_operation`)

The status endpoint is modelled as an oracle mapping the attempt number to
what `send_request_to_google_api(settings.fetch_endpoint, request)` does on
that call: either raise `requests.exceptions.HTTPError`, or return a JSON
dict `resp`, of which the poller inspects `'done' in resp and resp['done']`.
-/

/-- JSON body returned by the status endpoint: an optional `done` field
(`none` models a dict without the `'done'` key) and an opaque payload id
standing for the rest of the response dict. -/
structure OperationResponse where
  done_field : Option Bool
  payload : ℕ
deriving DecidableEq, Repr

/-- Outcome of one status request: a transport-level failure
(`requests.exceptions.HTTPError`) or a well-formed JSON response. -/
inductive PollOutcome where
  | httpError
  | resp (r : OperationResponse)
deriving DecidableEq, Repr

/-- Truthiness of `'done' in resp and resp['done']` for one poll outcome. -/
def pollDone : PollOutcome → Bool
  | .httpError => false
  | .resp r => r.done_field == some true

/-- Loop body of `fetch_operation`: `i` is the index of the next attempt,
the second argument the number of attempts left.  Returns the response the
function returns (if any) together with the number of `time.sleep` calls
executed.  A response with `done` truthy returns before the trailing
`time.sleep(attempt_interval)`; an `HTTPError` is caught and logged
(lines 167-168), after which the sleep still runs and the loop continues. -/
def fetchAux (oracle : ℕ → PollOutcome) : ℕ → ℕ → Option OperationResponse × ℕ
  | _, 0 => (none, 0)
  | i, k + 1 =>
    match oracle i with
    | .resp r =>
      if r.done_field = some true then (some r, 0)
      else ((fetchAux oracle (i + 1) k).1, (fetchAux oracle (i + 1) k).2 + 1)
    | .httpError => ((fetchAux oracle (i + 1) k).1, (fetchAux oracle (i + 1) k).2 + 1)

/-- Constant `max_attempts = 30` from line 159. -/
def max_attempts : ℕ := 30

/-- Constant `attempt_interval = 10` (seconds) from line 160. -/
def attempt_interval : ℕ := 10

/-- `fetch_operation` (lines 141-170): poll the status endpoint up to
`max_attempts` times, sleeping `attempt_interval` seconds after every
attempt that did not return, and return the first response whose `done`
flag is truthy (falling off the loop returns Python `None`).  The second
component counts the `time.sleep` calls. -/
def fetch_operation (oracle : ℕ → PollOutcome) : Option OperationResponse × ℕ :=
  fetchAux oracle 0 max_attempts

/-- Endpoint that answers `done:false` 29 times and `done:true` on the
30th call (attempt index 29); payload is the attempt index. -/
def demoOracle29 : ℕ → PollOutcome :=
  fun i => .resp ⟨some (decide (i = 29)), i⟩

/-- Endpoint that answers `done:false` on every call. -/
def demoOracleAllFalse : ℕ → PollOutcome :=
  fun i => .resp ⟨some false, i⟩

/-- Substitution replacing every transport-level failure of an endpoint by
a well-formed `done:false` response. -/
def errToPending (oracle : ℕ → PollOutcome) : ℕ → PollOutcome :=
  fun i =>
    match oracle i with
    | .httpError => .resp ⟨some false, 0⟩
    | o => o

lemma fetchAux_all_pending (oracle : ℕ → PollOutcome) :
    ∀ k i, (∀ j, j < k → pollDone (oracle (i + j)) = false) →
      fetchAux oracle i k = (none, k) := by
  intro k
  induction k with
  | zero => intro i _; rfl
  | succ k ih =>
    intro i h
    have h0 : pollDone (oracle i) = false := by
      have := h 0 (Nat.succ_pos k)
      simpa using this
    have hrest : ∀ j, j < k → pollDone (oracle (i + 1 + j)) = false := by
      intro j hj
      have := h (j + 1) (by omega)
      simpa [Nat.add_assoc, Nat.add_comm 1 j] using this
    have htail := ih (i + 1) hrest
    cases ho : oracle i with
    | httpError => simp [fetchAux, ho, htail]
    | resp r =>
      have hr : ¬ r.done_field = some true := by
        intro hcontra
        rw [ho] at h0
        simp [pollDone, hcontra] at h0
      simp [fetchAux, ho, hr, htail]

lemma fetchAux_first_done (oracle : ℕ → PollOutcome) :
    ∀ k i m r, m < k → (∀ j, j < m → pollDone (oracle (i + j)) = false) →
      oracle (i + m) = .resp r → r.done_field = some true →
      fetchAux oracle i k = (some r, m) := by
  intro k
  induction k with
  | zero => intro i m r hm; omega
  | succ k ih =>
    intro i m r hm hbefore hfound hdone
    cases m with
    | zero =>
      have hi : oracle i = .resp r := by simpa using hfound
      simp [fetchAux, hi, hdone]
    | succ m =>
      have h0 : pollDone (oracle i) = false := by
        have := hbefore 0 (Nat.succ_pos m)
        simpa using this
      have hrest : ∀ j, j < m → pollDone (oracle (i + 1 + j)) = false := by
        intro j hj
        have := hbefore (j + 1) (by omega)
        simpa [Nat.add_assoc, Nat.add_comm 1 j] using this
      have hfound' : oracle (i + 1 + m) = .resp r := by
        simpa [Nat.add_assoc, Nat.add_comm 1 m] using hfound
      have htail := ih (i + 1) m r (by omega) hrest hfound' hdone
      cases ho : oracle i with
      | httpError => simp [fetchAux, ho, htail]
      | resp q =>
        have hq : ¬ q.done_field = some true := by
          intro hcontra
          rw [ho] at h0
          simp [pollDone, hcontra] at h0
        simp [fetchAux, ho, hq, htail]

lemma fetchAux_errToPending (oracle : ℕ → PollOutcome) :
    ∀ k i, fetchAux (errToPending oracle) i k = fetchAux oracle i k := by
  intro k
  induction k with
  | zero => intro i; rfl
  | succ k ih =>
    intro i
    cases ho : oracle i with
    | httpError =>
      have he : errToPending oracle i = .resp ⟨some false, 0⟩ := by
        simp [errToPending, ho]
      simp [fetchAux, ho, he, ih]
    | resp r =>
      have he : errToPending oracle i = .resp r := by
        simp [errToPending, ho]
      by_cases hr : r.done_field = some true
      · simp [fetchAux, ho, he, hr]
      · simp [fetchAux, ho, he, hr, ih]

/-- C1: `fetch_operation` polls the status endpoint at a fixed 10-second
interval for at most 30 attempts and returns the first response whose
`done` flag is true (after sleeping once per non-final attempt); with a
fake endpoint answering `done:false` 29 times then `done:true`, it returns
the final payload having slept exactly 29 times, and with an all-`false`
endpoint it returns `None` having slept exactly 30 times. -/
theorem fetch_operation_spec :
    (∀ (oracle : ℕ → PollOutcome) (m : ℕ) (r : OperationResponse),
        m < max_attempts → (∀ j, j < m → pollDone (oracle j) = false) →
        oracle m = .resp r → r.done_field = some true →
        fetch_operation oracle = (some r, m)) ∧
    (∀ oracle : ℕ → PollOutcome,
        (∀ j, j < max_attempts → pollDone (oracle j) = false) →
        fetch_operation oracle = (none, max_attempts)) ∧
    max_attempts = 30 ∧ attempt_interval = 10 ∧
    fetch_operation demoOracle29 = (some ⟨some true, 29⟩, 29) ∧
    fetch_operation demoOracleAllFalse = (none, 30) := by
  refine ⟨?_, ?_, rfl, rfl, ?_, ?_⟩
  · intro oracle m r hm hbefore hfound hdone
    have := fetchAux_first_done oracle max_attempts 0 m r hm
      (by intro j hj; simpa using hbefore j hj) (by simpa using hfound) hdone
    simpa [fetch_operation] using this
  · intro oracle h
    have := fetchAux_all_pending oracle max_attempts 0
      (by intro j hj; simpa using h j hj)
    simpa [fetch_operation] using this
  · decide
  · decide

/-- Witness for C1: the 29-false-then-true scenario, through the general
first-`done` clause of `fetch_operation_spec`. -/
theorem fetch_operation_spec_witness :
    fetch_operation demoOracle29 = (some ⟨some true, 29⟩, 29) :=
  fetch_operation_spec.1 demoOracle29 29 ⟨some true, 29⟩ (by decide)
    (by decide) (by decide) (by decide)

/-- C3: a transport-level error (`requests.exceptions.HTTPError`) raised
by a status request is swallowed and polling continues to the next
scheduled attempt — replacing every such error by a well-formed
`done:false` (still pending) response changes neither the returned value
nor the number of sleeps, and an endpoint that always raises makes the
poller run its full 30-attempt budget and return `None` instead of
propagating the error. -/
theorem fetch_operation_transport_errors :
    (∀ oracle : ℕ → PollOutcome,
        fetch_operation (errToPending oracle) = fetch_operation oracle) ∧
    fetch_operation (fun _ => .httpError) = (none, 30) := by
  refine ⟨?_, by decide⟩
  intro oracle
  simpa [fetch_operation] using fetchAux_errToPending oracle max_attempts 0

/-- Witness for C3: error-for-pending substitution applied to the
29-false-then-true endpoint. -/
theorem fetch_operation_transport_errors_witness :
    fetch_operation (errToPending demoOracle29) =
      fetch_operation demoOracle29 :=
  fetch_operation_transport_errors.1 demoOracle29

/-! ## Submission path — `generation.py` lines 53-88 and 173-200

The HTTP layer is modelled by the response `requests.post` produces:
a status code plus an opaque id for the parsed JSON body.
`Response.raise_for_status` (requests) raises `HTTPError` exactly for
4xx/5xx status codes.
-/

/-- HTTP response delivered by `requests.post`: status code and an opaque
id standing for the parsed JSON body. -/
structure HTTPResponse where
  status : ℕ
  body : ℕ
deriving DecidableEq, Repr

/-- `response.raise_for_status()` from the requests library: raises
`HTTPError` for a 4xx or 5xx status code, otherwise does nothing. -/
def raise_for_status (response : HTTPResponse) : Except PyError Unit :=
  if 400 ≤ response.status ∧ response.status < 600 then
    .error (.httpError response.status)
  else
    .ok ()

/-- `send_request_to_google_api` (lines 53-88): authenticated POST whose
HTTP-layer outcome is the argument; calls `raise_for_status` and returns
the parsed JSON body.  There is no retry here. -/
def send_request_to_google_api (response : HTTPResponse) : Except PyError ℕ :=
  match raise_for_status response with
  | .error e => .error e
  | .ok _ => .ok response.body

/-- `image_to_video` (lines 173-200): submits the generation request and,
on success, polls the returned operation with `fetch_operation`.  The
`try`/`except requests.exceptions.HTTPError` around both calls (lines
194-200) logs the error and falls off the function, returning `None`;
any other exception would propagate.  `submission` is the HTTP-layer
outcome of the submission POST and `oracle` the status endpoint used by
the poller. -/
def image_to_video (submission : HTTPResponse) (oracle : ℕ → PollOutcome) :
    Except PyError (Option OperationResponse) :=
  match send_request_to_google_api submission with
  | .ok _name => .ok (fetch_operation oracle).1
  | .error (.httpError _) => .ok none
  | .error e => .error e

/-- C4 counterexample: on a 404 submission response, the HTTP error does
not propagate out of `image_to_video` — the function absorbs it and
returns `None` (`.ok none`), so the claim that the error "propagates
immediately out of the submission operation (image_to_video)" is false. -/
theorem image_to_video_absorbs_http_error :
    image_to_video ⟨404, 7⟩ (fun _ => .httpError) = .ok none ∧
    ¬ ∃ e : PyError, image_to_video ⟨404, 7⟩ (fun _ => .httpError) =
      .error e := by
  have h : image_to_video ⟨404, 7⟩ (fun _ => .httpError) = .ok none := by
    decide
  refine ⟨h, ?_⟩
  rintro ⟨e, he⟩
  rw [h] at he
  exact Except.noConfusion he

/-- C4 amended: a 4xx/5xx submission response raises `HTTPError` out of
`send_request_to_google_api` without any retry, but `image_to_video`
catches that error, logs it, and returns `None` — the error is absorbed
there rather than propagating; a sub-400 response returns the parsed
body. -/
theorem submission_http_error_spec :
    (∀ response : HTTPResponse, 400 ≤ response.status → response.status < 600 →
        send_request_to_google_api response =
          .error (.httpError response.status)) ∧
    (∀ (response : HTTPResponse) (oracle : ℕ → PollOutcome),
        400 ≤ response.status → response.status < 600 →
        image_to_video response oracle = .ok none) ∧
    (∀ response : HTTPResponse, response.status < 400 →
        send_request_to_google_api response = .ok response.body) := by
  refine ⟨?_, ?_, ?_⟩
  · intro response h4 h6
    simp [send_request_to_google_api, raise_for_status, h4, h6]
  · intro response oracle h4 h6
    simp [image_to_video, send_request_to_google_api, raise_for_status, h4, h6]
  · intro response hlt
    have : ¬ (400 ≤ response.status ∧ response.status < 600) := by omega
    simp [send_request_to_google_api, raise_for_status, this]

/-- Witness for C4's amended theorem at a concrete 404 response. -/
theorem submission_http_error_spec_witness :
    send_request_to_google_api ⟨404, 7⟩ = .error (.httpError 404) ∧
    image_to_video ⟨404, 7⟩ (fun _ => .httpError) = .ok none :=
  ⟨submission_http_error_spec.1 ⟨404, 7⟩ (by decide) (by decide),
   submission_http_error_spec.2.1 ⟨404, 7⟩ (fun _ => .httpError)
     (by decide) (by decide)⟩

/-! ## Batch orchestrator — `generation.py` lines 254-370

`generate_video_for_item` checks for the required key
`'recolored_image_uri'` (lines 269-273) and otherwise runs a pipeline of
downloads, prompt resolution, submission and polling (lines 275-335) that
performs I/O; that pipeline's outcome — the produced video records, or the
exception it raises — is modelled as a field of the item.  No
`try`/`except` surrounds the pipeline inside `generate_video_for_item`.

`generate_videos_concurrently` (lines 338-370) maps the worker over the
items with `ThreadPoolExecutor.map` and iterates the results in input
order, extending the aggregate with each non-empty list; iterating
`executor.map`'s result re-raises the exception of the first failed item,
so the aggregation loop stops there and the exception leaves the batch
call. -/

/-- One item of the batch: whether `'recolored_image_uri' in item_data`,
and the outcome of the item's generation pipeline (lines 275-335), video
records being opaque ids. -/
structure ItemData where
  has_recolored_image_uri : Bool
  pipeline : Except PyError (List ℕ)
deriving DecidableEq, Repr

/-- `generate_video_for_item` (lines 254-335): a missing
`'recolored_image_uri'` key is logged and yields an empty list; otherwise
the item's pipeline runs, its exceptions propagating uncaught. -/
def generate_video_for_item (item_data : ItemData) : Except PyError (List ℕ) :=
  if item_data.has_recolored_image_uri = false then .ok []
  else item_data.pipeline

/-- Aggregation loop over the `executor.map` results iterator (lines
362-365): results arrive in input order, the first raised exception
re-raises out of the loop, and each non-empty list extends the aggregate
(extending with an empty list is a no-op, so it is dropped soundly). -/
def gatherResults : List (Except PyError (List ℕ)) → Except PyError (List ℕ)
  | [] => .ok []
  | .error e :: _ => .error e
  | .ok vs :: rest =>
    match gatherResults rest with
    | .ok acc => .ok (vs ++ acc)
    | .error e => .error e

/-- `generate_videos_concurrently` (lines 338-370). -/
def generate_videos_concurrently (items_to_process : List ItemData) :
    Except PyError (List ℕ) :=
  gatherResults (items_to_process.map generate_video_for_item)

/-- Per-item contribution when the batch completes: the pipeline's list
for a well-formed successful item, `[]` for a skipped one. -/
def itemVideos (item_data : ItemData) : List ℕ :=
  match generate_video_for_item item_data with
  | .ok vs => vs
  | .error _ => []

/-- C2 divergence, shown at the failing input: in a 3-item batch whose
second item raises a not-found error inside its pipeline, the exception
propagates out of `generate_videos_concurrently` (the batch call raises)
instead of that item contributing an empty result list. -/
theorem generate_videos_concurrently_item_error_aborts :
    generate_videos_concurrently
      [⟨true, .ok [10]⟩, ⟨true, .error .fileNotFoundError⟩,
       ⟨true, .ok [30]⟩] = .error .fileNotFoundError := by
  decide

/-- C2 behaviour on the code as written: an item missing the required
`'recolored_image_uri'` key contributes an empty list without raising;
when no item's pipeline raises, the batch returns the concatenation in
input order of the per-item lists; but any pipeline exception of an item
whose predecessors succeeded propagates out of the batch call. -/
theorem generate_videos_concurrently_spec :
    (∀ p : Except PyError (List ℕ),
        generate_video_for_item ⟨false, p⟩ = .ok []) ∧
    (∀ items : List ItemData,
        (∀ it ∈ items, it.has_recolored_image_uri = true →
          ∃ vs, it.pipeline = .ok vs) →
        generate_videos_concurrently items =
          .ok (items.map itemVideos).flatten) ∧
    (∀ (pre post : List ItemData) (it : ItemData) (e : PyError),
        (∀ j ∈ pre, j.has_recolored_image_uri = true →
          ∃ vs, j.pipeline = .ok vs) →
        it.has_recolored_image_uri = true → it.pipeline = .error e →
        generate_videos_concurrently (pre ++ it :: post) = .error e) := by
  have hok : ∀ it : ItemData,
      (it.has_recolored_image_uri = true → ∃ vs, it.pipeline = .ok vs) →
      generate_video_for_item it = .ok (itemVideos it) := by
    intro it h
    cases hk : it.has_recolored_image_uri with
    | false => simp [generate_video_for_item, itemVideos, hk]
    | true =>
      obtain ⟨vs, hvs⟩ := h hk
      simp [generate_video_for_item, itemVideos, hk, hvs]
  refine ⟨?_, ?_, ?_⟩
  · intro p
    simp [generate_video_for_item]
  · intro items hall
    induction items with
    | nil => simp [generate_videos_concurrently, gatherResults]
    | cons it rest ih =>
      have hit := hok it (hall it (List.mem_cons_self it rest))
      have hrest := ih (fun j hj hkey => hall j (List.mem_cons_of_mem it hj) hkey)
      simp only [generate_videos_concurrently, List.map_cons] at hrest ⊢
      simp [gatherResults, hit, hrest, List.flatten]
  · intro pre post it e hpre hkey herr
    induction pre with
    | nil =>
      have : generate_video_for_item it = .error e := by
        simp [generate_video_for_item, hkey, herr]
      simp [generate_videos_concurrently, gatherResults, this]
    | cons j rest ih =>
      have hj := hok j (hpre j (List.mem_cons_self j rest))
      have htail := ih (fun q hq hqk => hpre q (List.mem_cons_of_mem j hq) hqk)
      have hshape : (j :: rest) ++ it :: post = j :: (rest ++ it :: post) := rfl
      rw [hshape, generate_videos_concurrently, List.map_cons, hj]
      rw [generate_videos_concurrently] at htail
      simp only [gatherResults, htail]

/-- Witness for C2's theorem: a batch of a skipped item and two
successful items aggregates the two result lists in order. -/
theorem generate_videos_concurrently_spec_witness :
    generate_videos_concurrently
      [⟨true, .ok [10]⟩, ⟨false, .ok [20]⟩, ⟨true, .ok [30, 31]⟩] =
      .ok [10, 30, 31] := by
  have h := generate_videos_concurrently_spec.2.1
    [⟨true, .ok [10]⟩, ⟨false, .ok [20]⟩, ⟨true, .ok [30, 31]⟩]
    (by
      intro it hit hkey
      simp only [List.mem_cons, List.not_mem_nil, or_false] at hit
      rcases hit with rfl | rfl | rfl
      · exact ⟨[10], rfl⟩
      · simp at hkey
      · exact ⟨[30, 31], rfl⟩)
  simpa [itemVideos, generate_video_for_item] using h

/-! ## Timeline assembler — `gen_v/video/editing.py`

`get_opposite_side` (lines 388-410), `set_target_resolution`
(lines 518-549) and `trim_clips` (lines 246-301).
-/

/-- `get_opposite_side` (editing.py lines 388-410): the `match` on the
side string, raising `ValueError` in the wildcard case. -/
def get_opposite_side (side : String) : Except PyError String :=
  if side = "left" then .ok "right"
  else if side = "right" then .ok "left"
  else if side = "top" then .ok "bottom"
  else if side = "bottom" then .ok "top"
  else .error .valueError

/-- C8: `get_opposite_side` is its own inverse on the four sides
(left and right swap, top and bottom swap), and every other input string
raises `ValueError`. -/
theorem get_opposite_side_spec :
    (get_opposite_side "left" = .ok "right" ∧
     get_opposite_side "right" = .ok "left" ∧
     get_opposite_side "top" = .ok "bottom" ∧
     get_opposite_side "bottom" = .ok "top") ∧
    (∀ side : String,
        side = "left" ∨ side = "right" ∨ side = "top" ∨ side = "bottom" →
        ∃ t, get_opposite_side side = .ok t ∧ get_opposite_side t = .ok side) ∧
    (∀ side : String, side ≠ "left" → side ≠ "right" → side ≠ "top" →
        side ≠ "bottom" → get_opposite_side side = .error .valueError) := by
  refine ⟨⟨rfl, rfl, rfl, rfl⟩, ?_, ?_⟩
  · intro side h
    rcases h with rfl | rfl | rfl | rfl
    · exact ⟨"right", rfl, rfl⟩
    · exact ⟨"left", rfl, rfl⟩
    · exact ⟨"bottom", rfl, rfl⟩
    · exact ⟨"top", rfl, rfl⟩
  · intro side h1 h2 h3 h4
    simp [get_opposite_side, h1, h2, h3, h4]

/-- Witness for C8: the involution clause at side `"left"`, and the error
clause at the unrecognized side `"diagonal"`. -/
theorem get_opposite_side_spec_witness :
    (∃ t, get_opposite_side "left" = .ok t ∧ get_opposite_side t = .ok "left") ∧
    get_opposite_side "diagonal" = .error .valueError :=
  ⟨get_opposite_side_spec.2.1 "left" (Or.inl rfl),
   get_opposite_side_spec.2.2 "diagonal" (by decide) (by decide) (by decide)
     (by decide)⟩

/-- `set_target_resolution` (editing.py lines 518-549): the first clip's
size is read as `[clip_w, clip_h]`; the desired dimensions are paired to
preserve the clip's orientation, a square clip taking the smaller desired
dimension on both axes. -/
def set_target_resolution (clip_w clip_h resized_image_width
    resized_image_height : ℕ) : ℕ × ℕ :=
  if clip_w < clip_h then
    if resized_image_width > resized_image_height then
      (resized_image_height, resized_image_width)
    else
      (resized_image_width, resized_image_height)
  else if clip_w > clip_h then
    if resized_image_width > resized_image_height then
      (resized_image_width, resized_image_height)
    else
      (resized_image_height, resized_image_width)
  else
    (min resized_image_height resized_image_width,
     min resized_image_height resized_image_width)

/-- C6: `set_target_resolution` preserves the first clip's orientation —
a portrait source yields the desired pair ordered smaller-first, a
landscape source the pair ordered larger-first, a square source the
smaller desired dimension on both axes; a 1080×1920 source with desired
dimensions (1280, 720) yields (720, 1280). -/
theorem set_target_resolution_spec :
    (∀ clip_w clip_h dw dh : ℕ, clip_w < clip_h →
        set_target_resolution clip_w clip_h dw dh = (min dw dh, max dw dh)) ∧
    (∀ clip_w clip_h dw dh : ℕ, clip_h < clip_w →
        set_target_resolution clip_w clip_h dw dh = (max dw dh, min dw dh)) ∧
    (∀ clip_s dw dh : ℕ,
        set_target_resolution clip_s clip_s dw dh = (min dw dh, min dw dh)) ∧
    set_target_resolution 1080 1920 1280 720 = (720, 1280) := by
  refine ⟨?_, ?_, ?_, by decide⟩
  · intro clip_w clip_h dw dh hlt
    rcases le_or_lt dw dh with hle | hgt
    · simp [set_target_resolution, hlt, Nat.not_lt.mpr hle,
        Nat.min_eq_left hle, Nat.max_eq_right hle]
    · simp [set_target_resolution, hlt, hgt,
        Nat.min_eq_right (Nat.le_of_lt hgt), Nat.max_eq_left (Nat.le_of_lt hgt)]
  · intro clip_w clip_h dw dh hlt
    have hnot : ¬ clip_w < clip_h := by omega
    rcases le_or_lt dw dh with hle | hgt
    · simp [set_target_resolution, hnot, hlt, Nat.not_lt.mpr hle,
        Nat.min_eq_left hle, Nat.max_eq_right hle]
    · simp [set_target_resolution, hnot, hlt, hgt,
        Nat.min_eq_right (Nat.le_of_lt hgt), Nat.max_eq_left (Nat.le_of_lt hgt)]
  · intro clip_s dw dh
    simp [set_target_resolution, Nat.min_comm dh dw]

/-- Witness for C6: the portrait clause at the 1080×1920 source with
desired pair (1280, 720). -/
theorem set_target_resolution_spec_witness :
    set_target_resolution 1080 1920 1280 720 = (min 1280 720, max 1280 720) :=
  set_target_resolution_spec.1 1080 1920 1280 720 (by decide)

/-! ### Clip trimming — `trim_clips` (editing.py lines 246-301)

A moviepy `VideoFileClip` is observed through its `duration`; the
compositing engine's `subclipped(start_time, end_time)` primitive keeps
the sub-range from `start_time` to `end_time`, a negative time measuring
from the clip's end and a missing `end_time` meaning the clip's end.
-/

/-- A loaded video clip, observed through its duration in seconds. -/
structure VideoClip where
  duration : ℚ
deriving DecidableEq, Repr

/-- Duration produced by the compositing engine's
`clip.subclipped(start_time, end_time)` (moviepy): a negative bound is
taken from the clip's end, `none` as `end_time` means the clip's end. -/
def subclipped (clip : VideoClip) (start_time : ℚ) (end_time : Option ℚ) :
    VideoClip :=
  let s := if start_time < 0 then clip.duration + start_time else start_time
  let e :=
    match end_time with
    | none => clip.duration
    | some t => if t < 0 then clip.duration + t else t
  ⟨e - s⟩

/-- Inner part of the loop `for index, video in
enumerate(video_clips[1:-1]): video_clips[index + 1] = trimmed`: apply the
trim to every clip except the last of the remaining list. -/
def trimMiddle (f : VideoClip → VideoClip) : List VideoClip → List VideoClip
  | [] => []
  | [c] => [c]
  | c :: c' :: rest => f c :: trimMiddle f (c' :: rest)

/-- The whole slice-assignment loop: the first and last clip are left
untouched, every interior clip is trimmed by `f`. -/
def trim_loop (f : VideoClip → VideoClip) : List VideoClip → List VideoClip
  | [] => []
  | c :: rest => c :: trimMiddle f rest

/-- Local `total_length` of `trim_clips` (lines 264-267): sum of the clip
durations minus `padding * (len(video_clips) - 1)`. -/
def totalLength (video_clips : List VideoClip) (padding : ℚ) : ℚ :=
  (video_clips.map VideoClip.duration).sum -
    padding * ((video_clips.length : ℚ) - 1)

/-- Local `total_trim_length` (line 269). -/
def totalTrimLength (video_clips : List VideoClip) (padding : ℚ)
    (output_length : ℚ) : ℚ :=
  totalLength video_clips padding - output_length

/-- Local `trim_length` (line 278): `total_trim_length` divided by
`len(video_clips) - 2` (Python int subtraction, so an `ℤ` value). -/
def trimShare (video_clips : List VideoClip) (padding : ℚ)
    (output_length : ℚ) : ℚ :=
  totalTrimLength video_clips padding output_length /
    (((video_clips.length : ℤ) - 2 : ℤ) : ℚ)

/-- `trim_clips` (editing.py lines 246-301).  Trimming is skipped when
`total_trim_length < 0` or trimming is disabled; otherwise
`trim_length = total_trim_length / (len(video_clips) - 2)` raises
`ZeroDivisionError` for exactly two clips, and the loop trims every
interior clip on the requested side — `subclipped(-(duration -
trim_length), None)` for `"start"`, `subclipped(0, duration -
trim_length)` for `"end"` — raising `ValueError` on its first iteration
(so only when an interior clip exists, `len ≥ 3`) for any other
`trim_location`. -/
def trim_clips (video_clips : List VideoClip) (padding : ℚ)
    (output_length : ℚ) (trim_location : String)
    (trim_enabled : Bool := true) : Except PyError (List VideoClip) :=
  if totalTrimLength video_clips padding output_length < 0 ∨
      trim_enabled = false then
    .ok video_clips
  else if ((video_clips.length : ℤ) - 2 : ℤ) = 0 then
    .error .zeroDivisionError
  else if trim_location = "start" then
    .ok (trim_loop
      (fun v => subclipped v
        (-(v.duration - trimShare video_clips padding output_length)) none)
      video_clips)
  else if trim_location = "end" then
    .ok (trim_loop
      (fun v => subclipped v 0
        (some (v.duration - trimShare video_clips padding output_length)))
      video_clips)
  else if 3 ≤ video_clips.length then
    .error .valueError
  else
    .ok video_clips

lemma trimMiddle_append_singleton (f : VideoClip → VideoClip) :
    ∀ (l : List VideoClip) (x : VideoClip),
      trimMiddle f (l ++ [x]) = l.map f ++ [x] := by
  intro l x
  induction l with
  | nil => simp [trimMiddle]
  | cons a l ih =>
    cases hl : l ++ [x] with
    | nil => simp at hl
    | cons b t =>
      have : trimMiddle f ((a :: l) ++ [x]) = f a :: trimMiddle f (l ++ [x]) := by
        rw [List.cons_append, hl, trimMiddle, ← hl]
      rw [this, ih, List.map_cons, List.cons_append]

lemma trim_loop_decomposed (f : VideoClip → VideoClip)
    (c₀ cl : VideoClip) (mid : List VideoClip) :
    trim_loop f (c₀ :: (mid ++ [cl])) = c₀ :: (mid.map f ++ [cl]) := by
  have h : trim_loop f (c₀ :: (mid ++ [cl])) =
      c₀ :: trimMiddle f (mid ++ [cl]) := rfl
  rw [h, trimMiddle_append_singleton]

lemma map_ext_mem {α β : Type} (l : List α) (f g : α → β)
    (h : ∀ a ∈ l, f a = g a) : l.map f = l.map g := by
  induction l with
  | nil => rfl
  | cons a l ih =>
    rw [List.map_cons, List.map_cons, h a (List.mem_cons_self a l),
      ih (fun b hb => h b (List.mem_cons_of_mem a hb))]

lemma map_eq_self_mem {α : Type} (l : List α) (f : α → α)
    (h : ∀ a ∈ l, f a = a) : l.map f = l := by
  rw [map_ext_mem l f id h, List.map_id]

lemma length_decomposed (c₀ cl : VideoClip) (mid : List VideoClip) :
    (c₀ :: (mid ++ [cl])).length = mid.length + 2 := by
  simp

lemma subclipped_start_of_lt (c : VideoClip) (t : ℚ) (_h0 : 0 ≤ t)
    (hlt : t < c.duration) :
    subclipped c (-(c.duration - t)) none = ⟨c.duration - t⟩ := by
  have hneg : -(c.duration - t) < 0 := by linarith
  simp only [subclipped, if_pos hneg]
  norm_num

lemma subclipped_start_zero (c : VideoClip) (h0 : 0 ≤ c.duration) :
    subclipped c (-(c.duration - 0)) none = c := by
  rcases eq_or_lt_of_le h0 with h | h
  · obtain ⟨d⟩ := c
    simp only at h
    rw [← h]
    norm_num [subclipped]
  · have := subclipped_start_of_lt c 0 le_rfl h
    simpa using this

lemma subclipped_end_of_le (c : VideoClip) (t : ℚ) (hle : t ≤ c.duration) :
    subclipped c 0 (some (c.duration - t)) = ⟨c.duration - t⟩ := by
  have h1 : ¬ ((0 : ℚ) < 0) := lt_irrefl 0
  have h2 : ¬ (c.duration - t < 0) := by linarith
  simp only [subclipped, if_neg h1, if_neg h2]
  norm_num

/-- C5 counterexample: a 2-clip sequence whose padding-adjusted total
duration exactly equals the target (so it "does not exceed" it) makes
`trim_clips` raise `ZeroDivisionError` instead of returning the clips
unchanged — the claimed no-op postcondition fails. -/
theorem trim_clips_two_clip_counterexample :
    totalTrimLength [⟨5⟩, ⟨5⟩] 0 10 ≤ 0 ∧
    trim_clips [⟨5⟩, ⟨5⟩] 0 10 "end" true = .error .zeroDivisionError := by
  constructor
  · norm_num [totalTrimLength, totalLength]
  · have h1 : ¬ (totalTrimLength [⟨5⟩, ⟨5⟩] 0 10 < 0 ∨ (true = false)) := by
      norm_num [totalTrimLength, totalLength]
    have h2 : ((([(⟨5⟩ : VideoClip), ⟨5⟩].length : ℤ) - 2 : ℤ)) = 0 := by
      norm_num
    rw [trim_clips, if_neg h1, if_pos h2]

/-- C5 amended: when the padding-adjusted total duration is strictly below
the target, `trim_clips` is a no-op for any clip list; for a sequence of
at least 3 clips with nonnegative durations and a valid trim side, a total
that does not exceed the target leaves every clip unchanged, and a total
exceeding the target subtracts the equal share
`(total - target)/(n - 2)` (here `trimShare`, with `n - 2 = mid.length`)
from each interior clip — provided each interior clip is longer than its
share — leaving the first and last clips untouched. -/
theorem trim_clips_spec :
    (∀ (video_clips : List VideoClip) (padding output_length : ℚ)
        (trim_location : String) (trim_enabled : Bool),
        totalTrimLength video_clips padding output_length < 0 →
        trim_clips video_clips padding output_length trim_location
          trim_enabled = .ok video_clips) ∧
    (∀ (c₀ cl : VideoClip) (mid : List VideoClip)
        (padding output_length : ℚ) (trim_location : String),
        trim_location = "start" ∨ trim_location = "end" →
        0 < mid.length →
        (∀ c ∈ c₀ :: (mid ++ [cl]), 0 ≤ c.duration) →
        (totalTrimLength (c₀ :: (mid ++ [cl])) padding output_length ≤ 0 →
          trim_clips (c₀ :: (mid ++ [cl])) padding output_length
            trim_location true = .ok (c₀ :: (mid ++ [cl]))) ∧
        (0 < totalTrimLength (c₀ :: (mid ++ [cl])) padding output_length →
          (∀ c ∈ mid,
            trimShare (c₀ :: (mid ++ [cl])) padding output_length <
              c.duration) →
          trim_clips (c₀ :: (mid ++ [cl])) padding output_length
            trim_location true =
            .ok (c₀ :: (mid.map (fun c =>
              ⟨c.duration -
                trimShare (c₀ :: (mid ++ [cl])) padding output_length⟩) ++
              [cl])))) := by
  constructor
  · intro video_clips padding output_length trim_location trim_enabled hlt
    rw [trim_clips, if_pos (Or.inl hlt)]
  · intro c₀ cl mid padding output_length trim_location hloc hmid hnn
    have hlen2 : ¬ ((((c₀ :: (mid ++ [cl])).length : ℤ) - 2 : ℤ) = 0) := by
      rw [length_decomposed]
      push_cast
      omega
    have hshare0 :
        totalTrimLength (c₀ :: (mid ++ [cl])) padding output_length = 0 →
        trimShare (c₀ :: (mid ++ [cl])) padding output_length = 0 := by
      intro h
      rw [trimShare, h, zero_div]
    have hmain : ∀ t : ℚ, 0 ≤ t →
        (∀ c ∈ mid, t < c.duration ∨ (t = 0 ∧ 0 ≤ c.duration)) →
        (trim_location = "start" ∨ trim_location = "end") →
        (if trim_location = "start" then
          trim_loop (fun v => subclipped v (-(v.duration - t)) none)
            (c₀ :: (mid ++ [cl]))
        else
          trim_loop (fun v => subclipped v 0 (some (v.duration - t)))
            (c₀ :: (mid ++ [cl]))) =
          c₀ :: (mid.map (fun c => ⟨c.duration - t⟩) ++ [cl]) := by
      intro t ht hint hl
      have hone : ∀ c ∈ mid, t ≤ c.duration ∧ 0 ≤ c.duration := by
        intro c hc
        rcases hint c hc with h | ⟨h1, h2⟩
        · exact ⟨le_of_lt h, le_trans ht (le_of_lt h)⟩
        · exact ⟨by rw [h1]; exact h2, h2⟩
      rcases hl with hl | hl
      · rw [if_pos hl, trim_loop_decomposed]
        congr 1
        congr 1
        apply map_ext_mem
        intro c hc
        rcases hint c hc with h | ⟨h1, h2⟩
        · exact subclipped_start_of_lt c t ht h
        · subst h1
          rw [subclipped_start_zero c h2]
          norm_num
      · have hns : trim_location ≠ "start" := by
          rw [hl]; decide
        rw [if_neg hns, trim_loop_decomposed]
        congr 1
        congr 1
        apply map_ext_mem
        intro c hc
        exact subclipped_end_of_le c t (hone c hc).1
    constructor
    · intro hle
      rcases lt_or_eq_of_le hle with hlt | heq
      · rw [trim_clips, if_pos (Or.inl hlt)]
      · have hzero := hshare0 heq
        have hcond : ¬ (totalTrimLength (c₀ :: (mid ++ [cl])) padding
            output_length < 0 ∨ (true = false)) := by
          rw [heq]
          simp
        have hres := hmain 0 le_rfl
          (fun c hc => Or.inr ⟨rfl, hnn c (by
            simp only [List.mem_cons, List.mem_append] at hc ⊢
            tauto)⟩) hloc
        rcases hloc with hl | hl
        · rw [trim_clips, if_neg hcond, if_neg hlen2, if_pos hl, hzero]
          rw [if_pos hl] at hres
          rw [hres]
          have : mid.map (fun c => (⟨c.duration - 0⟩ : VideoClip)) = mid := by
            apply map_eq_self_mem
            intro c _
            norm_num
          rw [this]
        · have hns : trim_location ≠ "start" := by rw [hl]; decide
          rw [trim_clips, if_neg hcond, if_neg hlen2, if_neg hns, if_pos hl,
            hzero]
          rw [if_neg hns] at hres
          rw [hres]
          have : mid.map (fun c => (⟨c.duration - 0⟩ : VideoClip)) = mid := by
            apply map_eq_self_mem
            intro c _
            norm_num
          rw [this]
    · intro hpos hshare
      have hsh0 : 0 ≤ trimShare (c₀ :: (mid ++ [cl])) padding output_length := by
        rw [trimShare]
        apply div_nonneg (le_of_lt hpos)
        rw [length_decomposed]
        push_cast
        have hc : (0 : ℚ) ≤ (mid.length : ℚ) := Nat.cast_nonneg _
        linarith
      have hcond : ¬ (totalTrimLength (c₀ :: (mid ++ [cl])) padding
          output_length < 0 ∨ (true = false)) := by
        simp only [Bool.true_eq_false, or_false, not_lt]
        exact le_of_lt hpos
      have hres := hmain
        (trimShare (c₀ :: (mid ++ [cl])) padding output_length) hsh0
        (fun c hc => Or.inl (hshare c hc)) hloc
      rcases hloc with hl | hl
      · rw [trim_clips, if_neg hcond, if_neg hlen2, if_pos hl]
        rw [if_pos hl] at hres
        rw [hres]
      · have hns : trim_location ≠ "start" := by rw [hl]; decide
        rw [trim_clips, if_neg hcond, if_neg hlen2, if_neg hns, if_pos hl]
        rw [if_neg hns] at hres
        rw [hres]

/-- Witness for C5's amended theorem: a [4, 6, 4] sequence with padding 1
and target 9 has total 12, excess 3, one interior clip, share 3/1 = 3;
the interior clip is trimmed to duration 3 and the boundary clips keep
theirs. -/
theorem trim_clips_spec_witness :
    trim_clips [⟨4⟩, ⟨6⟩, ⟨4⟩] 1 9 "end" true =
      .ok ((⟨4⟩ : VideoClip) :: ([(⟨6⟩ : VideoClip)].map (fun c =>
        ⟨c.duration - trimShare [⟨4⟩, ⟨6⟩, ⟨4⟩] 1 9⟩) ++ [⟨4⟩])) :=
  (trim_clips_spec.2 ⟨4⟩ ⟨4⟩ [⟨6⟩] 1 9 "end" (Or.inr rfl) (by decide)
    (by
      intro c hc
      simp only [List.mem_cons, List.mem_append, List.not_mem_nil,
        or_false] at hc
      rcases hc with rfl | rfl | rfl <;> norm_num)).2
    (by norm_num [totalTrimLength, totalLength])
    (by
      intro c hc
      simp only [List.mem_cons, List.not_mem_nil, or_false] at hc
      subst hc
      norm_num [trimShare, totalTrimLength, totalLength])

/-- C10 counterexample: a 1-clip sequence needing trimming does not raise
`ZeroDivisionError` — the divisor `len - 2` is `-1`, the division
succeeds, the interior loop is empty and the clip list is returned
unchanged — so the claim's "2-clip (or shorter)" quantification is wrong
for shorter-than-2 sequences. -/
theorem trim_clips_single_clip_no_error :
    0 ≤ totalTrimLength [⟨5⟩] 0 3 ∧
    trim_clips [⟨5⟩] 0 3 "end" true = .ok [⟨5⟩] := by
  constructor
  · norm_num [totalTrimLength, totalLength]
  · have h1 : ¬ (totalTrimLength [(⟨5⟩ : VideoClip)] 0 3 < 0 ∨
        (true = false)) := by
      norm_num [totalTrimLength, totalLength]
    have h2 : ¬ ((([(⟨5⟩ : VideoClip)].length : ℤ) - 2 : ℤ) = 0) := by
      norm_num
    have h3 : ("end" : String) ≠ "start" := by decide
    rw [trim_clips, if_neg h1, if_neg h2, if_neg h3, if_pos rfl]
    rfl

/-- C10 amended: when the padding-adjusted total duration of a sequence of
exactly 2 clips meets or exceeds the target and trimming is enabled, the
per-interior-clip share `(total - target)/(len - 2)` divides by zero and
`trim_clips` raises `ZeroDivisionError` instead of returning a clip
list (for any trim side, valid or not). -/
theorem trim_clips_two_clips_zero_division :
    ∀ (c1 c2 : VideoClip) (padding output_length : ℚ)
      (trim_location : String),
      0 ≤ totalTrimLength [c1, c2] padding output_length →
      trim_clips [c1, c2] padding output_length trim_location true =
        .error .zeroDivisionError := by
  intro c1 c2 padding output_length trim_location h
  have h1 : ¬ (totalTrimLength [c1, c2] padding output_length < 0 ∨
      (true = false)) := by
    simp only [Bool.true_eq_false, or_false, not_lt]
    exact h
  have h2 : ((([c1, c2].length : ℤ) - 2 : ℤ)) = 0 := by norm_num
  rw [trim_clips, if_neg h1, if_pos h2]

/-- Witness for C10's amended theorem: two 5-second clips against a
10-second target. -/
theorem trim_clips_two_clips_zero_division_witness :
    trim_clips [⟨5⟩, ⟨5⟩] 0 9 "end" true = .error .zeroDivisionError :=
  trim_clips_two_clips_zero_division ⟨5⟩ ⟨5⟩ 0 9 "end"
    (by norm_num [totalTrimLength, totalLength])

/-! ## Audio overlay durations — `components/video_editing.py` lines 144-166 -/

/-- `AudioInput` (`models/media.py` lines 48-59): start time defaults to
0, duration is nullable. -/
structure AudioInput where
  start_time : ℚ := 0
  duration : Option ℚ := none
deriving DecidableEq, Repr

/-- Truthiness of `audio_inputs[i].duration` in Python: `None` and `0.0`
are both falsy. -/
def durationFalsy : Option ℚ → Bool
  | none => true
  | some d => d == 0

/-- `calculate_audio_duration` (video_editing.py lines 144-166): if the
overlay's duration is falsy, derive it as the gap from its start time to
the next overlay's start time — or to the end of the host video when
`i >= len(audio_inputs) - 1`; otherwise keep the stored duration.
Callers (`load_audio_clips`) always pass a valid index `i`; out-of-range
access is modelled by a default element. -/
def calculate_audio_duration (i : ℕ) (audio_inputs : List AudioInput)
    (video_duration : ℚ) : ℚ :=
  let a := audio_inputs.getD i {}
  if durationFalsy a.duration then
    let next_start :=
      if i < audio_inputs.length - 1 then
        (audio_inputs.getD (i + 1) {}).start_time
      else
        video_duration
    next_start - a.start_time
  else
    a.duration.getD 0

/-- Overlays with start times [0, 5, 12] and no explicit durations. -/
def demoAudioInputs : List AudioInput := [⟨0, none⟩, ⟨5, none⟩, ⟨12, none⟩]

/-- C7 counterexample: an overlay with the explicit duration 0 does not
keep it — the Python falsy test `if not audio_inputs[i].duration` treats
0.0 like a missing duration and re-derives it from the host video,
yielding 20 instead of 0. -/
theorem calculate_audio_duration_zero_not_kept :
    calculate_audio_duration 0 [⟨0, some 0⟩] 20 = 20 ∧ (20 : ℚ) ≠ 0 := by
  constructor
  · norm_num [calculate_audio_duration, durationFalsy, List.getD]
  · norm_num

/-- C7 amended: an overlay with an explicit nonzero duration keeps it; an
overlay whose duration is omitted (or explicitly zero, which the falsy
test treats the same) gets the gap from its start time to the next
overlay's start time, or to the end of the host video if it is the last
overlay; start times [0, 5, 12] with no explicit durations on a 20-second
host resolve to durations [5, 7, 8]. -/
theorem calculate_audio_duration_spec :
    (∀ (i : ℕ) (audio_inputs : List AudioInput) (video_duration : ℚ)
        (a : AudioInput) (d : ℚ),
        audio_inputs[i]? = some a → a.duration = some d → d ≠ 0 →
        calculate_audio_duration i audio_inputs video_duration = d) ∧
    (∀ (i : ℕ) (audio_inputs : List AudioInput) (video_duration : ℚ)
        (a b : AudioInput),
        audio_inputs[i]? = some a → audio_inputs[i + 1]? = some b →
        (a.duration = none ∨ a.duration = some 0) →
        calculate_audio_duration i audio_inputs video_duration =
          b.start_time - a.start_time) ∧
    (∀ (i : ℕ) (audio_inputs : List AudioInput) (video_duration : ℚ)
        (a : AudioInput),
        audio_inputs[i]? = some a → i + 1 = audio_inputs.length →
        (a.duration = none ∨ a.duration = some 0) →
        calculate_audio_duration i audio_inputs video_duration =
          video_duration - a.start_time) ∧
    (calculate_audio_duration 0 demoAudioInputs 20 = 5 ∧
     calculate_audio_duration 1 demoAudioInputs 20 = 7 ∧
     calculate_audio_duration 2 demoAudioInputs 20 = 8) := by
  refine ⟨?_, ?_, ?_, ?_, ?_, ?_⟩
  · intro i audio_inputs video_duration a d ha hd hd0
    have hget : audio_inputs.getD i {} = a := by
      rw [List.getD_eq_getElem?_getD, ha, Option.getD_some]
    have hfalsy : durationFalsy (some d) = false := by
      simp [durationFalsy, hd0]
    rw [calculate_audio_duration]
    simp only [hget, hd, hfalsy, Bool.false_eq_true, if_false,
      Option.getD_some]
  · intro i audio_inputs video_duration a b ha hb hdur
    have hget : audio_inputs.getD i {} = a := by
      rw [List.getD_eq_getElem?_getD, ha, Option.getD_some]
    have hgetb : audio_inputs.getD (i + 1) {} = b := by
      rw [List.getD_eq_getElem?_getD, hb, Option.getD_some]
    have hlt : i + 1 < audio_inputs.length := by
      have := List.getElem?_eq_some_iff.mp hb
      exact this.1
    have hfalsy : durationFalsy a.duration = true := by
      rcases hdur with h | h <;> simp [durationFalsy, h]
    have hi : i < audio_inputs.length - 1 := by omega
    rw [calculate_audio_duration]
    simp only [hget, hfalsy, if_true, hi, hgetb]
  · intro i audio_inputs video_duration a ha hlast hdur
    have hget : audio_inputs.getD i {} = a := by
      rw [List.getD_eq_getElem?_getD, ha, Option.getD_some]
    have hfalsy : durationFalsy a.duration = true := by
      rcases hdur with h | h <;> simp [durationFalsy, h]
    have hi : ¬ (i < audio_inputs.length - 1) := by omega
    rw [calculate_audio_duration]
    simp only [hget, hfalsy, if_true, hi, if_false]
  · norm_num [calculate_audio_duration, durationFalsy, demoAudioInputs,
      List.getD]
  · norm_num [calculate_audio_duration, durationFalsy, demoAudioInputs,
      List.getD]
  · norm_num [calculate_audio_duration, durationFalsy, demoAudioInputs,
      List.getD]

/-- Witness for C7's amended theorem: the middle overlay of the
[0, 5, 12] sequence resolves to the gap 12 - 5 = 7 by the gap clause. -/
theorem calculate_audio_duration_spec_witness :
    calculate_audio_duration 1 demoAudioInputs 20 = 12 - 5 :=
  calculate_audio_duration_spec.2.1 1 demoAudioInputs 20 ⟨5, none⟩
    ⟨12, none⟩ (by decide) (by decide) (Or.inl rfl)

/-! ## Hex colour parsing — `gen_v/utils/image.py` lines 97-124 -/

/-- Characters stripped by Python's default `str.strip()` (the ASCII
whitespace relevant to `int(s, 16)`). -/
def isPySpace (c : Char) : Bool :=
  c == ' ' || c == '\t' || c == '\n' || c == '\r' || c == '\x0b' || c == '\x0c'

/-- Value of one hexadecimal digit, case-insensitive. -/
def hexDigitVal (c : Char) : Option ℕ :=
  if '0' ≤ c ∧ c ≤ '9' then some (c.toNat - '0'.toNat)
  else if 'a' ≤ c ∧ c ≤ 'f' then some (c.toNat - 'a'.toNat + 10)
  else if 'A' ≤ c ∧ c ≤ 'F' then some (c.toNat - 'A'.toNat + 10)
  else none

/-- Accumulate a base-16 digit string; fails on any non-hex character. -/
def digitsValAux : ℕ → List Char → Option ℕ
  | acc, [] => some acc
  | acc, c :: cs =>
    match hexDigitVal c with
    | some d => digitsValAux (acc * 16 + d) cs
    | none => none

/-- Python's `int(s, 16)` on a short character slice: surrounding
whitespace is stripped, an optional single sign is allowed, and the rest
must be one or more hex digits; anything else raises `ValueError`
(modelled as `none`). -/
def pyIntBase16 (cs : List Char) : Option ℤ :=
  match (cs.dropWhile isPySpace).reverse.dropWhile isPySpace |>.reverse with
  | [] => none
  | '+' :: rest =>
    if rest = [] then none else (digitsValAux 0 rest).map (fun v => (v : ℤ))
  | '-' :: rest =>
    if rest = [] then none else (digitsValAux 0 rest).map (fun v => -(v : ℤ))
  | rest => (digitsValAux 0 rest).map (fun v => (v : ℤ))

/-- Local `hex_code = hex_color_string.lstrip('#')` (image.py line 115):
all leading `'#'` characters are stripped. -/
def hex_code (hex_color_string : String) : List Char :=
  hex_color_string.data.dropWhile (fun c => c == '#')

/-- `hex_to_rgb` (image.py lines 97-124): strip leading `'#'`, require
exactly 6 remaining characters, then parse the three 2-character slices
with `int(_, 16)`; a wrong length or a non-parsing slice raises
`ValueError`. -/
def hex_to_rgb (hex_color_string : String) : Except PyError (ℤ × ℤ × ℤ) :=
  if (hex_code hex_color_string).length ≠ 6 then .error .valueError
  else
    match pyIntBase16 ((hex_code hex_color_string).take 2),
        pyIntBase16 (((hex_code hex_color_string).drop 2).take 2),
        pyIntBase16 (((hex_code hex_color_string).drop 4).take 2) with
    | some red, some green, some blue => .ok (red, green, blue)
    | _, _, _ => .error .valueError

/-- C9 counterexample: `"#1a2b3c"` is itself a 7-character string, yet
`hex_to_rgb` succeeds on it (returning (26, 43, 60)) instead of raising —
the claim's "raises for a 7-character string", read over strings as
given, is false. -/
theorem hex_to_rgb_seven_char_ok :
    hex_to_rgb "#1a2b3c" = .ok (26, 43, 60) ∧ "#1a2b3c".length = 7 := by
  constructor
  · decide
  · rfl

/-- C9 amended: `hex_to_rgb` maps `"#1a2b3c"` to (26, 43, 60), and raises
`ValueError` for every string whose remainder after stripping leading
`'#'` characters has length 5 or 7 — in particular for the 5- and
7-hex-digit strings `"1a2b3"` and `"1a2b3c4"`. -/
theorem hex_to_rgb_spec :
    hex_to_rgb "#1a2b3c" = .ok (26, 43, 60) ∧
    (∀ s : String,
        (hex_code s).length = 5 ∨ (hex_code s).length = 7 →
        hex_to_rgb s = .error .valueError) ∧
    hex_to_rgb "1a2b3" = .error .valueError ∧
    hex_to_rgb "1a2b3c4" = .error .valueError := by
  refine ⟨by decide, ?_, by decide, by decide⟩
  intro s h
  have hne : (hex_code s).length ≠ 6 := by omega
  rw [hex_to_rgb, if_pos hne]

/-- Witness for C9's amended theorem: the wrong-length clause at the
5-hex-digit string. -/
theorem hex_to_rgb_spec_witness :
    hex_to_rgb "1a2b3" = .error .valueError :=
  hex_to_rgb_spec.2.1 "1a2b3" (Or.inl (by decide))

end GenV
